import Mathlib

/-!
# Verification of the api-go product service

Shallow embedding of the repository's storage layer (`storage.go`),
HTTP handler layer (`api.go`) and entrypoint (`main.go`), with theorems
checking the natural-language specification against the code.

Modelling conventions:
* Go `int64` values are modelled as `Int` (with the explicit int64 range
  check where the source performs one, namely in `strconv.Atoi`).
* Go `time.Time` is modelled as `Int`; the zero `time.Time` value is `0`.
* The SQL database is modelled as a named-table store: a list of
  `(table name, rows)` pairs plus the state of the `product.id` serial
  sequence (`nextId`) and the session-level `lastval` register that
  PostgreSQL's `lastval()` reads.  A query naming a table that does not
  exist fails with a driver-level error, exactly as PostgreSQL does.
* Go's `error` results become `Except ApiError` (or an error-message
  `String` at the raw SQL level); an `ApiError` constructor records the
  site class of the error (decode, id-parse, not-found, storage).
* Nondeterministic inputs (`rand.Int64()`, `time.Now()`, the outcome of
  `http.ListenAndServe`, the HTTP request body) become explicit
  parameters.
-/

set_option autoImplicit false

/-- `storage.Product` (`part_000` lines 137-142): id, name, code, createdAt. -/
structure Product where
  id : Int
  name : String
  code : String
  createdAt : Int
  deriving DecidableEq, Repr

/-- The zero value of Go's `time.Time`, as it is left by
`&storage.Product{Id: ..., Name: ..., Code: ...}` in `updateProduct`. -/
def zeroTime : Int := 0

/-- `storage.NewProduct` (`part_000` lines 145-152): assigns a random id and
the current UTC time; both nondeterministic inputs are explicit parameters. -/
def NewProduct (randId now : Int) (name code : String) : Product :=
  { id := randId, name := name, code := code, createdAt := now }

/-- The database state behind `*sql.DB`: named tables, the `product.id`
serial sequence counter, and the session `lastval` register. -/
structure DB where
  tables : List (String × List Product)
  nextId : Int
  lastval : Option Int
  deriving DecidableEq, Repr

/-- A database with no tables; the serial sequence starts at 1. -/
def DB.empty : DB := { tables := [], nextId := 1, lastval := none }

/-- Resolve a table name, as the SQL engine does: first entry matching. -/
def DB.lookupTable (db : DB) (name : String) : Option (List Product) :=
  (db.tables.find? (fun t => t.fst == name)).map Prod.snd

/-- Replace the rows of an existing table (used by insert/update). -/
def DB.setTable (db : DB) (name : String) (rows : List Product) : DB :=
  { db with tables := db.tables.map (fun t => if t.fst == name then (t.fst, rows) else t) }

/-- `select * from <table>`: all rows, or a driver error when the relation
does not exist. -/
def DB.queryAll (db : DB) (table : String) : Except String (List Product) :=
  match db.lookupTable table with
  | some rows => .ok rows
  | none => .error ("relation " ++ table ++ " does not exist")

/-- `select * from <table> where id=$1`. -/
def DB.queryWhereId (db : DB) (table : String) (id : Int) : Except String (List Product) :=
  match db.lookupTable table with
  | some rows => .ok (rows.filter (fun r => r.id == id))
  | none => .error ("relation " ++ table ++ " does not exist")

/-- `insert into product (name, code, createdAt) values($1, $2, $3)`
(`part_000` line 202): the serial column assigns `nextId`, the sequence
advances, and `lastval` becomes observable. -/
def DB.execInsertProduct (db : DB) (name code : String) (createdAt : Int) :
    Except String DB :=
  match db.lookupTable "product" with
  | none => .error "relation product does not exist"
  | some rows =>
      .ok { (db.setTable "product" (rows ++ [⟨db.nextId, name, code, createdAt⟩])) with
              nextId := db.nextId + 1, lastval := some db.nextId }

/-- `update product set name=$1, code=$2, createdAt=$3 where id=$4`
(`part_000` line 274): overwrites every matching row; the statement reports
no error when zero rows match. -/
def DB.execUpdateProduct (db : DB) (name code : String) (createdAt : Int) (id : Int) :
    Except String DB :=
  match db.lookupTable "product" with
  | none => .error "relation product does not exist"
  | some rows =>
      .ok (db.setTable "product"
        (rows.map (fun r => if r.id == id then ⟨r.id, name, code, createdAt⟩ else r)))

/-- `SELECT lastval()` (`part_000` line 208): errors when no sequence value
has been produced in the session. -/
def DB.selectLastval (db : DB) : Except String Int :=
  match db.lastval with
  | some v => .ok v
  | none => .error "lastval is not yet defined in this session"

/-- The error taxonomy of the service (spec section 7); each constructor
corresponds to an error-producing site of the source. -/
inductive ApiError where
  /-- `json.NewDecoder(r.Body).Decode` failed (`api.go` lines 136, 167). -/
  | decodeError (msg : String)
  /-- `getId`: fewer than three path segments (`api.go` line 208). -/
  | idAbsent
  /-- `getId`: `strconv.Atoi` failed on the segment (`api.go` line 213). -/
  | idNotNumeric (given : String)
  /-- `GetProductById`: no row matched (`part_000` line 260). -/
  | notFound (id : Int)
  /-- A driver/query failure returned by the `database/sql` layer. -/
  | storageError (msg : String)
  deriving DecidableEq, Repr

/-- `err.Error()`: the message carried by each error value, with the format
strings of the source. -/
def ApiError.message : ApiError → String
  | .decodeError msg => msg
  | .idAbsent => "the id argument is not present"
  | .idNotNumeric given => "numeric id is expected. Given: " ++ given
  | .notFound id => "p with ID " ++ toString id ++ " not found"
  | .storageError msg => msg

/-- `PgStorage.Init` (`part_000` lines 186-198):
`create table if not exists product (id serial primary key, ...)`. -/
def PgStorage.Init (db : DB) : DB :=
  match db.lookupTable "product" with
  | some _ => db
  | none => { db with tables := db.tables ++ [("product", [])] }

/-- `PgStorage.CreateProduct` (`part_000` lines 201-216): insert
name/code/createdAt, read `lastval()`, return the argument record with its
id overwritten by the sequence value.  The pair's second component is the
database state after the call (mutated even when `lastval` would fail). -/
def PgStorage.CreateProduct (db : DB) (p : Product) :
    Except ApiError Product × DB :=
  match DB.execInsertProduct db p.name p.code p.createdAt with
  | .error e => (.error (.storageError e), db)
  | .ok db' =>
      match DB.selectLastval db' with
      | .error e => (.error (.storageError e), db')
      | .ok lastInsertId => (.ok { p with id := lastInsertId }, db')

/-- `PgStorage.GetProducts` (`part_000` lines 219-243):
`select * from product`, scanning every row. -/
def PgStorage.GetProducts (db : DB) : Except ApiError (List Product) :=
  match DB.queryAll db "product" with
  | .error e => .error (.storageError e)
  | .ok rows => .ok rows

/-- `PgStorage.GetProductById` (`part_000` lines 246-270): the source
queries `select * from p where id=$1` — table `p`, not `product` — then
reports not-found when `rows.Next()` is false, else scans the first row. -/
def PgStorage.GetProductById (db : DB) (id : Int) : Except ApiError Product :=
  match DB.queryWhereId db "p" id with
  | .error e => .error (.storageError e)
  | .ok rows =>
      match rows with
      | [] => .error (.notFound id)
      | r :: _ => .ok r

/-- `PgStorage.UpdateProduct` (`part_000` lines 273-280): issues the update
statement and returns the argument record unchanged; the affected row count
is never inspected. -/
def PgStorage.UpdateProduct (db : DB) (p : Product) :
    Except ApiError Product × DB :=
  match DB.execUpdateProduct db p.name p.code p.createdAt p.id with
  | .error e => (.error (.storageError e), db)
  | .ok db' => (.ok p, db')

/-! ## HTTP layer (`api.go`) -/

/-- `strings.Split(path, "/")` on the character list of the path: split at
every separator, keeping empty segments (Go semantics for a one-character
separator). -/
def splitOnSlash : List Char → List (List Char)
  | [] => [[]]
  | c :: rest =>
      if c = '/' then [] :: splitOnSlash rest
      else
        match splitOnSlash rest with
        | [] => [[c]]
        | s :: ss => (c :: s) :: ss

/-- Accumulator pass of `strconv.Atoi` over the digit characters: fails at
the first non-digit. -/
def atoiDigits : List Char → Nat → Option Nat
  | [], acc => some acc
  | c :: rest, acc =>
      if c.isDigit then atoiDigits rest (acc * 10 + (c.toNat - 48)) else none

/-- Worker of `strconv.Atoi` on the character list of its argument:
optional sign, at least one digit, all characters digits, and the signed
value within `[-2^63, 2^63 - 1]`; otherwise an error (`none`). -/
def atoiChars : List Char → Option Int
  | [] => none
  | c :: rest =>
      let neg : Bool := c = '-'
      let digits : List Char := if c = '-' ∨ c = '+' then rest else c :: rest
      match digits with
      | [] => none
      | _ =>
          match atoiDigits digits 0 with
          | none => none
          | some n =>
              let v : Int := if neg then -(n : Int) else (n : Int)
              if v < -(2 ^ 63) ∨ (2 ^ 63 - 1 : Int) < v then none else some v

/-- `strconv.Atoi` (base 10, 64-bit `int`). -/
def Atoi (s : String) : Option Int := atoiChars s.data

/-- `getId` (`api.go` lines 204-216): split the URL path on `/`, require at
least three segments, and parse segment index 2 with `strconv.Atoi`. -/
def getId (path : String) : Except ApiError Int :=
  let parts := splitOnSlash path.data
  if parts.length < 3 then .error .idAbsent
  else
    let id := String.mk (parts.getD 2 [])
    match Atoi id with
    | none => .error (.idNotNumeric id)
    | some n => .ok n

/-- An HTTP request body as seen by `json.NewDecoder(r.Body).Decode`:
either malformed (the decoder fails with a message) or a well-formed value
of the expected request shape. -/
inductive Body (α : Type) where
  | malformed (msg : String)
  | wellFormed (value : α)

/-- The outcome of decoding the body into the request struct. -/
def decodeBody {α : Type} : Body α → Except ApiError α
  | .malformed msg => .error (.decodeError msg)
  | .wellFormed v => .ok v

/-- `api.CreateProductRequest` (`api.go` lines 120-123). -/
structure CreateProductRequest where
  name : String
  code : String
  deriving DecidableEq, Repr

/-- `api.CreateProductResponse` (`api.go` lines 126-131). -/
structure CreateProductResponse where
  id : Int
  name : String
  code : String
  createdAt : Int
  deriving DecidableEq, Repr

/-- `api.UpdateProductRequest` (`api.go` lines 158-162): carries only id,
name and code. -/
structure UpdateProductRequest where
  id : Int
  name : String
  code : String
  deriving DecidableEq, Repr

/-- `api.getProductResponse` (`api.go` lines 90-95). -/
structure GetProductResponse where
  id : Int
  name : String
  code : String
  createdAt : Int
  deriving DecidableEq, Repr

/-- `api.GetProductsResponse` (`api.go` lines 186-188). -/
structure GetProductsResponse where
  products : List Product
  deriving DecidableEq, Repr

/-- The JSON document written to the response: either a handler's payload
or the middleware's `WebError` body. -/
inductive JsonBody (α : Type) where
  | payload (value : α)
  | webError (error : String)
  deriving DecidableEq, Repr

/-- What `writeJSON` leaves on the wire: a status code and a JSON body
(`api.go` lines 228-232; the Content-Type header is always
`application/json` and is not modelled separately). -/
structure HttpResponse (α : Type) where
  status : Nat
  body : JsonBody α
  deriving DecidableEq, Repr

/-- `writeJSON` (`api.go` lines 228-232). -/
def writeJSON {α : Type} (status : Nat) (v : JsonBody α) : HttpResponse α :=
  { status := status, body := v }

/-- `interceptError` (`api.go` lines 69-81): pass a successful handler's
response through; turn a handler error into `writeJSON` of HTTP 400 with
`WebError{Error: err.Error()}`. -/
def interceptError {α : Type} (handlerResult : Except ApiError (HttpResponse α)) :
    HttpResponse α :=
  match handlerResult with
  | .ok resp => resp
  | .error err => writeJSON 400 (.webError err.message)

/-- `Server.getProduct` (`api.go` lines 98-117).  Handlers return the
`writeJSON` response or an error, paired with the database state after the
call. -/
def Server.getProduct (db : DB) (path : String) :
    Except ApiError (HttpResponse GetProductResponse) × DB :=
  match getId path with
  | .error err => (.error err, db)
  | .ok id =>
      match PgStorage.GetProductById db id with
      | .error err => (.error err, db)
      | .ok p =>
          (.ok (writeJSON 200 (.payload ⟨p.id, p.name, p.code, p.createdAt⟩)), db)

/-- `Server.createProduct` (`api.go` lines 134-155): decode `{name, code}`,
build a record with `storage.NewProduct`, persist it, answer 200 with the
stored record. -/
def Server.createProduct (db : DB) (randId now : Int)
    (body : Body CreateProductRequest) :
    Except ApiError (HttpResponse CreateProductResponse) × DB :=
  match decodeBody body with
  | .error err => (.error err, db)
  | .ok request =>
      let p := NewProduct randId now request.name request.code
      match PgStorage.CreateProduct db p with
      | (.error err, db') => (.error err, db')
      | (.ok product, db') =>
          (.ok (writeJSON 200
            (.payload ⟨product.id, product.name, product.code, product.createdAt⟩)), db')

/-- `Server.updateProduct` (`api.go` lines 165-183): decode
`{id, name, code}`, build a `storage.Product` whose `CreatedAt` is the zero
`time.Time`, persist the overwrite, answer 200 with the record returned by
the storage call. -/
def Server.updateProduct (db : DB) (body : Body UpdateProductRequest) :
    Except ApiError (HttpResponse Product) × DB :=
  match decodeBody body with
  | .error err => (.error err, db)
  | .ok request =>
      let p : Product :=
        { id := request.id, name := request.name, code := request.code,
          createdAt := zeroTime }
      match PgStorage.UpdateProduct db p with
      | (.error err, db') => (.error err, db')
      | (.ok updatedProduct, db') => (.ok (writeJSON 200 (.payload updatedProduct)), db')

/-- `Server.getProducts` (`api.go` lines 191-201). -/
def Server.getProducts (db : DB) :
    Except ApiError (HttpResponse GetProductsResponse) × DB :=
  match PgStorage.GetProducts db with
  | .error err => (.error err, db)
  | .ok products => (.ok (writeJSON 200 (.payload ⟨products⟩)), db)

/-- The `/createProduct` route as registered in `HandleEndpoints`: the
handler wrapped in `interceptError` (the logging middleware only logs). -/
def createProductRoute (db : DB) (randId now : Int)
    (body : Body CreateProductRequest) : HttpResponse CreateProductResponse × DB :=
  let (r, db') := Server.createProduct db randId now body
  (interceptError r, db')

/-- The `/updateProduct/{id}` route: handler wrapped in `interceptError`. -/
def updateProductRoute (db : DB) (body : Body UpdateProductRequest) :
    HttpResponse Product × DB :=
  let (r, db') := Server.updateProduct db body
  (interceptError r, db')

/-- The `/getProduct/{id}` route: handler wrapped in `interceptError`. -/
def getProductRoute (db : DB) (path : String) :
    HttpResponse GetProductResponse × DB :=
  let (r, db') := Server.getProduct db path
  (interceptError r, db')

/-- `api.Server` (`api.go` lines 19-23); the request multiplexer is
modelled by the route functions above. -/
structure Server where
  listenAddr : String
  db : DB
  deriving DecidableEq, Repr

/-- `NewApiServer` (`api.go` lines 26-33): stores the `listenAddr`
argument and the storage handle. -/
def NewApiServer (listenAddr : String) (storage : DB) : Server :=
  { listenAddr := listenAddr, db := storage }

/-- The observable outcome of `Server.Run`: which address was passed to
`http.ListenAndServe`, what was logged, and the Go `error` return value
(`none` models `nil`). -/
structure RunOutcome where
  boundAddr : String
  loggedErrors : List String
  returned : Option String
  deriving DecidableEq, Repr

/-- `Server.Run` (`api.go` lines 44-50): calls
`http.ListenAndServe(":8080", ...)` — the hardcoded literal, not
`o.listenAddr` — logs the listen error when there is one, and returns
`nil` unconditionally.  The outcome of the listen call is the explicit
parameter `listenAndServeErr`. -/
def Server.Run (o : Server) (listenAndServeErr : Option String) : RunOutcome :=
  { boundAddr := ":8080"
  , loggedErrors :=
      match listenAndServeErr with
      | some e => [e]
      | none => []
  , returned := none }

/-- The tail of `main` (`main.go` lines 25-29): after `Run` returns, exit
with status 1 when it returned a non-nil error, otherwise fall through
(`none` = no exit from this branch). -/
def mainRunExitBranch (runReturned : Option String) : Option Nat :=
  match runReturned with
  | some _ => some 1
  | none => none

/-- Decidable equality of `Except` results, for evaluating the model on
concrete inputs. -/
instance Except.decEqInst {ε α : Type} [DecidableEq ε] [DecidableEq α] :
    DecidableEq (Except ε α) := fun x y =>
  match x, y with
  | .ok a, .ok b =>
      if h : a = b then isTrue (congrArg Except.ok h)
      else isFalse (fun hx => h (Except.ok.inj hx))
  | .ok _, .error _ => isFalse (fun hx => Except.noConfusion hx)
  | .error _, .ok _ => isFalse (fun hx => Except.noConfusion hx)
  | .error e, .error f =>
      if h : e = f then isTrue (congrArg Except.error h)
      else isFalse (fun hx => h (Except.error.inj hx))

/-- The database reached by initializing the schema on an empty database and
creating one product (name `widget`, code `W1`, creation time `5`). -/
def c1DB : DB :=
  (PgStorage.CreateProduct (PgStorage.Init DB.empty) (NewProduct 7 5 "widget" "W1")).snd

/-- Issue `CreateProduct` once per `(name, code, now)` input, threading the
database state; collects the records the storage layer returned. -/
def createMany : DB → List (String × String × Int) → Except ApiError (List Product × DB)
  | db, [] => .ok ([], db)
  | db, (name, code, now) :: rest =>
      match PgStorage.CreateProduct db (NewProduct 0 now name code) with
      | (.error e, _) => .error e
      | (.ok created, db') =>
          match createMany db' rest with
          | .error e => .error e
          | .ok (answers, dbN) => .ok (created :: answers, dbN)

/-- The rows that consecutive inserts starting at sequence value `k`
produce from `(name, code, now)` inputs. -/
def mkRows : Int → List (String × String × Int) → List Product
  | _, [] => []
  | k, (name, code, now) :: rest => ⟨k, name, code, now⟩ :: mkRows (k + 1) rest

/-- Whether `getId` succeeds on a path. -/
def getIdOk (path : String) : Bool :=
  match getId path with
  | .ok _ => true
  | .error _ => false

/-- The path segment that `getId` inspects: index 2 of the split, present
exactly when the split has at least three parts. -/
def segmentOfPath (path : String) : Option (List Char) :=
  (splitOnSlash path.data).get? 2

/-- From the claim's words, for the refinement comparison: a *numeric*
segment is a base-10 integer literal — an optional sign followed by at
least one decimal digit, and nothing else. -/
def numericSegment : List Char → Bool
  | [] => false
  | c :: rest =>
      if c = '-' ∨ c = '+' then !rest.isEmpty && rest.all Char.isDigit
      else (c :: rest).all Char.isDigit

/-- The claim's "segment is present and numeric" condition on a path. -/
def segmentNumeric (path : String) : Bool :=
  match segmentOfPath path with
  | none => false
  | some seg => numericSegment seg

/-- Value of a digit string, most significant digit first. -/
def digitsVal (cs : List Char) : Nat :=
  cs.foldl (fun a c => a * 10 + (c.toNat - 48)) 0

/-- The integer a numeric segment denotes (meaningful when
`numericSegment` holds). -/
def segmentVal : List Char → Int
  | [] => 0
  | c :: rest =>
      if c = '-' then -(digitsVal rest : Int)
      else if c = '+' then (digitsVal rest : Int)
      else (digitsVal (c :: rest) : Int)

/-- The integer denoted by the id segment of a path (0 when absent). -/
def pathSegmentVal (path : String) : Int :=
  match segmentOfPath path with
  | none => 0
  | some seg => segmentVal seg

/-- The signed 64-bit range Go's `strconv.Atoi` enforces on a 64-bit
platform. -/
def inInt64Range (v : Int) : Prop :=
  -(2 ^ 63) ≤ v ∧ v ≤ 2 ^ 63 - 1

instance (v : Int) : Decidable (inInt64Range v) := by
  unfold inInt64Range
  infer_instance

/-- A one-row database for concrete evaluations: table `product` holding
the record `⟨1, "x", "y", 9⟩`, sequence at 2. -/
def dbOneRow : DB :=
  { tables := [("product", [⟨1, "x", "y", 9⟩])], nextId := 2, lastval := some 1 }

/-! ## Helper lemmas -/

/-- Effect of rewriting one table's rows on a subsequent name lookup. -/
theorem List.find?_set_table (ts : List (String × List Product)) (n m : String)
    (rows : List Product) :
    ((ts.map (fun t => if t.fst == n then (t.fst, rows) else t)).find?
        (fun t => t.fst == m)) =
      if m = n then (ts.find? (fun t => t.fst == n)).map (fun t => (t.fst, rows))
      else ts.find? (fun t => t.fst == m) := by
  induction ts with
  | nil => by_cases hmn : m = n <;> simp [hmn]
  | cons t ts ih =>
      simp only [List.map_cons, List.find?_cons]
      by_cases htn : t.fst = n
      · have h1 : (t.fst == n) = true := beq_iff_eq.mpr htn
        by_cases hmn : m = n
        · have h2 : (t.fst == m) = true := beq_iff_eq.mpr (htn.trans hmn.symm)
          simp [h1, h2, hmn]
        · have h2 : (t.fst == m) = false :=
            beq_eq_false_iff_ne.mpr (fun h => hmn (h.symm.trans htn))
          rw [ih]
          simp [h1, h2, hmn]
      · have h1 : (t.fst == n) = false := beq_eq_false_iff_ne.mpr htn
        by_cases htm : t.fst = m
        · have hmn : ¬ m = n := fun h => htn (htm.trans h)
          have h2 : (t.fst == m) = true := beq_iff_eq.mpr htm
          simp [h1, h2, hmn]
        · have h2 : (t.fst == m) = false := beq_eq_false_iff_ne.mpr htm
          rw [ih]
          simp [h1, h2]

/-- `lookupTable` after `setTable`. -/
theorem DB.lookupTable_setTable (db : DB) (n m : String) (rows : List Product) :
    (db.setTable n rows).lookupTable m =
      if m = n then (db.lookupTable n).map (fun _ => rows)
      else db.lookupTable m := by
  unfold DB.lookupTable DB.setTable
  simp only [List.find?_set_table]
  by_cases hmn : m = n
  · simp only [hmn, if_pos rfl]
    cases List.find? (fun t => t.fst == n) db.tables <;> rfl
  · simp [hmn]

/-- `setTable` keeps the sequence counter and `lastval`. -/
theorem DB.setTable_nextId (db : DB) (n : String) (rows : List Product) :
    (db.setTable n rows).nextId = db.nextId := rfl

/-! ## Claims -/

/-- **C1** (code bug).  The spec says get-by-id returns the row matching the
id, or a NotFound-class error when no row matches, never a storage/driver
error.  The source's `GetProductById` queries `select * from p where id=$1`
— relation `p`, which `Init` never creates (`Init` creates `product`) — so
even with a matching row stored (here id 1 in table `product`), the call
fails with the driver's relation-does-not-exist error and the route answers
400 with that driver message instead of the NotFound message. -/
theorem c1_getById_queries_missing_relation :
    c1DB.lookupTable "product" = some [⟨1, "widget", "W1", 5⟩] ∧
    PgStorage.GetProductById c1DB 1 =
      .error (.storageError "relation p does not exist") ∧
    (getProductRoute c1DB "/getProduct/1").fst =
      writeJSON 400 (.webError "relation p does not exist") := by
  refine ⟨by decide, by decide, by decide⟩

/-- **C4**.  A malformed JSON body on create or update yields HTTP 400 with
the decoder's message as the error body, and the database state is returned
unchanged: the handler fails before any storage call. -/
theorem c4_malformed_body_yields_400_and_no_state_change
    (db : DB) (randId now : Int) (msg : String) :
    createProductRoute db randId now (.malformed msg) =
      (writeJSON 400 (.webError msg), db) ∧
    updateProductRoute db (.malformed msg) =
      (writeJSON 400 (.webError msg), db) :=
  ⟨rfl, rfl⟩

/-- **C5**.  The error middleware maps every failed handler result, whatever
the error kind, to HTTP 400 with body `{error: <message>}`; the status never
depends on the error kind; a successful handler's response passes through
untouched, so no error body is written on success. -/
theorem c5_interceptError_uniform_400
    (α : Type) (e₁ e₂ : ApiError) (resp : HttpResponse α) :
    @interceptError α (.error e₁) = writeJSON 400 (.webError e₁.message) ∧
    (@interceptError α (.error e₁)).status = (@interceptError α (.error e₂)).status ∧
    @interceptError α (.ok resp) = resp :=
  ⟨rfl, rfl, rfl⟩

/-- **C8**.  `Server.Run` returns `nil` whatever `http.ListenAndServe`
produced (the listen error is only logged), so the entrypoint's nonzero-exit
branch on `Run`'s return value never fires. -/
theorem c8_run_returns_nil_unconditionally
    (o : Server) (listenAndServeErr : Option String) :
    (o.Run listenAndServeErr).returned = none ∧
    (o.Run listenAndServeErr).loggedErrors = listenAndServeErr.toList ∧
    mainRunExitBranch (o.Run listenAndServeErr).returned = none := by
  refine ⟨rfl, ?_, rfl⟩
  cases listenAndServeErr <;> rfl

/-- **C10**.  `NewApiServer` stores its `listenAddr` argument but `Run`
consults only the hardcoded literal `":8080"`: the run outcome is identical
for any two constructor arguments and the bound address is always
`":8080"`. -/
theorem c10_listenAddr_never_consulted
    (addr addr₁ addr₂ : String) (store : DB) (listenAndServeErr : Option String) :
    (NewApiServer addr store).listenAddr = addr ∧
    ((NewApiServer addr store).Run listenAndServeErr).boundAddr = ":8080" ∧
    (NewApiServer addr₁ store).Run listenAndServeErr =
      (NewApiServer addr₂ store).Run listenAndServeErr :=
  ⟨rfl, rfl, rfl⟩

/-- What the update route does on a well-formed body over an existing
`product` table: answer 200 with the record the handler built (createdAt is
the zero time) and overwrite every matching row. -/
theorem updateProductRoute_eq (db : DB) (rs : List Product) (req : UpdateProductRequest)
    (h : db.lookupTable "product" = some rs) :
    updateProductRoute db (.wellFormed req) =
      (writeJSON 200 (.payload ⟨req.id, req.name, req.code, zeroTime⟩),
       db.setTable "product"
         (rs.map (fun r =>
           if r.id == req.id then ⟨r.id, req.name, req.code, zeroTime⟩ else r))) := by
  simp [updateProductRoute, Server.updateProduct, decodeBody, PgStorage.UpdateProduct,
        DB.execUpdateProduct, h, interceptError, writeJSON]

/-- **C2**.  Create persists only name/code/createdAt — the inserted row's
id comes from the database sequence, not from the record — and the handler
gets back the record with its id replaced by the last-insert (`lastval`)
value; the result does not depend on the client-supplied id at all; a
failing insert surfaces as a StorageError. -/
theorem c2_create_assigns_server_id (db : DB) (p : Product) (rs : List Product) :
    (db.lookupTable "product" = some rs →
      PgStorage.CreateProduct db p =
        (.ok { p with id := db.nextId },
         { (db.setTable "product" (rs ++ [⟨db.nextId, p.name, p.code, p.createdAt⟩])) with
             nextId := db.nextId + 1, lastval := some db.nextId })) ∧
    (db.lookupTable "product" = none →
      PgStorage.CreateProduct db p =
        (.error (.storageError "relation product does not exist"), db)) ∧
    (∀ clientId : Int,
      PgStorage.CreateProduct db { p with id := clientId } =
        PgStorage.CreateProduct db p) := by
  refine ⟨?_, ?_, ?_⟩
  · intro h
    simp [PgStorage.CreateProduct, DB.execInsertProduct, DB.selectLastval, h]
  · intro h
    simp [PgStorage.CreateProduct, DB.execInsertProduct, h]
  · intro clientId
    cases h : db.lookupTable "product" with
    | none => simp [PgStorage.CreateProduct, DB.execInsertProduct, h]
    | some rows => simp [PgStorage.CreateProduct, DB.execInsertProduct, DB.selectLastval, h]

/-- Witness for C2: on the freshly initialized database, creating a record
whose client-side id is 42 stores and returns id 1, the sequence value. -/
theorem c2_create_assigns_server_id_witness :
    PgStorage.CreateProduct (PgStorage.Init DB.empty) ⟨42, "a", "b", 7⟩ =
      (.ok ⟨1, "a", "b", 7⟩,
       { tables := [("product", [⟨1, "a", "b", 7⟩])], nextId := 2, lastval := some 1 }) := by
  have h :=
    (c2_create_assigns_server_id (PgStorage.Init DB.empty) ⟨42, "a", "b", 7⟩ []).1 (by decide)
  exact h.trans (by decide)

/-- **C3**.  The update route succeeds — HTTP 200 with the record it built —
for every well-formed body over an existing `product` table, with no check
that a row matched; when zero rows match the id, the table is returned
unchanged and the route still answers 200. -/
theorem c3_update_reports_success_even_on_zero_rows
    (db : DB) (rs : List Product) (req : UpdateProductRequest)
    (h : db.lookupTable "product" = some rs) :
    updateProductRoute db (.wellFormed req) =
      (writeJSON 200 (.payload ⟨req.id, req.name, req.code, zeroTime⟩),
       db.setTable "product"
         (rs.map (fun r =>
           if r.id == req.id then ⟨r.id, req.name, req.code, zeroTime⟩ else r))) ∧
    ((∀ r ∈ rs, r.id ≠ req.id) →
      (updateProductRoute db (.wellFormed req)).fst.status = 200 ∧
      (updateProductRoute db (.wellFormed req)).snd.lookupTable "product" = some rs) := by
  have hroute := updateProductRoute_eq db rs req h
  refine ⟨hroute, fun hnone => ⟨by rw [hroute]; rfl, ?_⟩⟩
  have hmap : rs.map (fun r =>
      if r.id == req.id then (⟨r.id, req.name, req.code, zeroTime⟩ : Product) else r) = rs := by
    have : rs.map (fun r =>
        if r.id == req.id then (⟨r.id, req.name, req.code, zeroTime⟩ : Product) else r) =
        rs.map id := by
      apply List.map_congr_left
      intro r hr
      simp [beq_eq_false_iff_ne.mpr (hnone r hr)]
    simpa using this
  rw [hroute]
  dsimp only
  rw [DB.lookupTable_setTable, if_pos rfl, h, Option.map_some', hmap]

/-- Witness for C3: updating id 2 on a table whose only row has id 1 still
answers 200 and leaves the row untouched. -/
theorem c3_update_witness :
    (updateProductRoute dbOneRow (.wellFormed ⟨2, "n", "c"⟩)).fst.status = 200 ∧
    (updateProductRoute dbOneRow (.wellFormed ⟨2, "n", "c"⟩)).snd.lookupTable "product" =
      some [⟨1, "x", "y", 9⟩] := by
  have H := (c3_update_reports_success_even_on_zero_rows dbOneRow [⟨1, "x", "y", 9⟩]
    ⟨2, "n", "c"⟩ (by decide)).2 (by decide)
  exact H

/-- **C9**.  The update handler builds its record with `CreatedAt` left at
the zero `time.Time`, so the route's 200 payload carries the zero timestamp
and every row whose id matched the request ends up stored with
`createdAt = zeroTime`, whatever it held before. -/
theorem c9_update_overwrites_createdAt_with_zero
    (db : DB) (rs : List Product) (req : UpdateProductRequest)
    (h : db.lookupTable "product" = some rs) :
    (updateProductRoute db (.wellFormed req)).fst =
      writeJSON 200 (.payload ⟨req.id, req.name, req.code, zeroTime⟩) ∧
    (∀ rows,
      (updateProductRoute db (.wellFormed req)).snd.lookupTable "product" = some rows →
      ∀ r ∈ rows, r.id = req.id → r.createdAt = zeroTime) := by
  have hroute := updateProductRoute_eq db rs req h
  constructor
  · rw [hroute]
  · intro rows hrows r hr hid
    rw [hroute] at hrows
    simp only [DB.lookupTable_setTable, if_pos rfl, h, Option.map_some'] at hrows
    rw [← Option.some_inj.mp hrows] at hr
    rcases List.mem_map.mp hr with ⟨r0, hr0, heq⟩
    by_cases hmatch : r0.id = req.id
    · rw [← heq]
      simp [beq_iff_eq.mpr hmatch]
    · rw [← heq] at hid
      simp [beq_eq_false_iff_ne.mpr hmatch] at hid
      exact absurd hid hmatch

/-- Every row produced from sequence value `k` onward has id at least `k`. -/
theorem mkRows_id_ge (l : List (String × String × Int)) :
    ∀ (k : Int) (r : Product), r ∈ mkRows k l → k ≤ r.id := by
  induction l with
  | nil => intro k r hr; simp [mkRows] at hr
  | cons hd rest ih =>
      intro k r hr
      obtain ⟨name, code, now⟩ := hd
      simp only [mkRows, List.mem_cons] at hr
      rcases hr with hr | hr
      · rw [hr]
      · have := ih (k + 1) r hr
        omega

/-- Consecutively assigned ids are pairwise distinct. -/
theorem mkRows_ids_nodup (l : List (String × String × Int)) :
    ∀ k : Int, ((mkRows k l).map Product.id).Nodup := by
  induction l with
  | nil => intro k; simp [mkRows]
  | cons hd rest ih =>
      intro k
      obtain ⟨name, code, now⟩ := hd
      simp only [mkRows, List.map_cons, List.nodup_cons]
      refine ⟨?_, ih (k + 1)⟩
      intro hmem
      rcases List.mem_map.mp hmem with ⟨r, hr, hid⟩
      have := mkRows_id_ge rest (k + 1) r hr
      omega

/-- `mkRows` produces one row per input. -/
theorem mkRows_length (l : List (String × String × Int)) :
    ∀ k : Int, (mkRows k l).length = l.length := by
  induction l with
  | nil => intro k; rfl
  | cons hd rest ih =>
      intro k
      obtain ⟨name, code, now⟩ := hd
      simp [mkRows, ih (k + 1)]

/-- Driving `CreateProduct` over a list of inputs from any state whose
`product` table exists: every create succeeds, the records handed back are
exactly the rows appended to the table, with consecutive sequence ids. -/
theorem createMany_ok (inputs : List (String × String × Int)) :
    ∀ (db : DB) (rs : List Product),
      db.lookupTable "product" = some rs →
      ∃ dbN, createMany db inputs = .ok (mkRows db.nextId inputs, dbN) ∧
        dbN.lookupTable "product" = some (rs ++ mkRows db.nextId inputs) ∧
        dbN.nextId = db.nextId + inputs.length := by
  induction inputs with
  | nil =>
      intro db rs h
      exact ⟨db, rfl, by simpa [mkRows] using h, by simp⟩
  | cons hd rest ih =>
      intro db rs h
      obtain ⟨name, code, now⟩ := hd
      have hstep : PgStorage.CreateProduct db (NewProduct 0 now name code) =
          (.ok ⟨db.nextId, name, code, now⟩,
           { (db.setTable "product" (rs ++ [⟨db.nextId, name, code, now⟩])) with
               nextId := db.nextId + 1, lastval := some db.nextId }) := by
        simp [PgStorage.CreateProduct, DB.execInsertProduct, DB.selectLastval, h, NewProduct]
      set dbMid : DB :=
        { (db.setTable "product" (rs ++ [⟨db.nextId, name, code, now⟩])) with
            nextId := db.nextId + 1, lastval := some db.nextId } with hdbMid
      have hmid : dbMid.lookupTable "product" = some (rs ++ [⟨db.nextId, name, code, now⟩]) := by
        have : dbMid.lookupTable "product" =
            (db.setTable "product" (rs ++ [⟨db.nextId, name, code, now⟩])).lookupTable
              "product" := rfl
        rw [this, DB.lookupTable_setTable, if_pos rfl, h, Option.map_some']
      obtain ⟨dbN, hc, hl, hn⟩ := ih dbMid (rs ++ [⟨db.nextId, name, code, now⟩]) hmid
      have hmidNext : dbMid.nextId = db.nextId + 1 := rfl
      refine ⟨dbN, ?_, ?_, ?_⟩
      · simp only [createMany, hstep]
        rw [hmidNext] at hc
        simp only [hc, mkRows]
      · rw [hl, hmidNext]
        simp [mkRows]
      · rw [hn, hmidNext]
        simp only [List.length_cons]
        push_cast
        ring

/-- **C6**.  List-all on the freshly initialized (empty) table returns the
empty sequence, not a failure; and after `N` creates from the initialized
database, list-all returns exactly the `N` records the creates produced —
same list, hence equal id sets — with pairwise-distinct ids, one per
create. -/
theorem c6_list_all (inputs : List (String × String × Int)) :
    PgStorage.GetProducts (PgStorage.Init DB.empty) = .ok [] ∧
    (∃ created dbN,
      createMany (PgStorage.Init DB.empty) inputs = .ok (created, dbN) ∧
      PgStorage.GetProducts dbN = .ok created ∧
      created.length = inputs.length ∧
      (created.map Product.id).Nodup) := by
  constructor
  · decide
  · obtain ⟨dbN, hc, hl, _⟩ :=
      createMany_ok inputs (PgStorage.Init DB.empty) [] (by decide)
    have h1 : (PgStorage.Init DB.empty).nextId = 1 := rfl
    rw [h1] at hc hl
    refine ⟨mkRows 1 inputs, dbN, hc, ?_, mkRows_length inputs 1, mkRows_ids_nodup inputs 1⟩
    simp only [List.nil_append] at hl
    simp [PgStorage.GetProducts, DB.queryAll, hl]

/-- Over an all-digit list, the `Atoi` accumulator pass succeeds with the
fold value. -/
theorem atoiDigits_all_digits (cs : List Char) :
    ∀ acc : Nat, cs.all Char.isDigit = true →
      atoiDigits cs acc = some (cs.foldl (fun a c => a * 10 + (c.toNat - 48)) acc) := by
  induction cs with
  | nil => intro acc _; rfl
  | cons c rest ih =>
      intro acc hall
      simp only [List.all_cons, Bool.and_eq_true] at hall
      simp [atoiDigits, hall.1, ih _ hall.2]

/-- With any non-digit present, the `Atoi` accumulator pass fails. -/
theorem atoiDigits_non_digit (cs : List Char) :
    ∀ acc : Nat, cs.all Char.isDigit = false → atoiDigits cs acc = none := by
  induction cs with
  | nil => intro acc h; simp at h
  | cons c rest ih =>
      intro acc hall
      by_cases hc : c.isDigit = true
      · simp only [List.all_cons, hc, Bool.true_and] at hall
        simp [atoiDigits, hc, ih _ hall]
      · simp [atoiDigits, hc]


/-- The source's negated range test, flipped into `inInt64Range`. -/
theorem range_if_flip (v : Int) :
    (if v < -(2 ^ 63) ∨ (2 ^ 63 - 1 : Int) < v then (none : Option Int) else some v) =
      if inInt64Range v then some v else none := by
  unfold inInt64Range
  by_cases h : -(2 ^ 63) ≤ v ∧ v ≤ (2 ^ 63 - 1 : Int)
  · rw [if_pos h, if_neg (by omega)]
  · rw [if_neg h, if_pos (by omega)]

/-- Characterization of the `Atoi` worker: it succeeds exactly on numeric
segments whose value lies in the int64 range, and then returns that
value. -/
theorem atoiChars_eq (cs : List Char) :
    atoiChars cs =
      if numericSegment cs = true ∧ inInt64Range (segmentVal cs)
      then some (segmentVal cs) else none := by
  rcases cs with _ | ⟨c, rest⟩
  · simp [atoiChars, numericSegment]
  by_cases hsign : c = '-' ∨ c = '+'
  · rcases rest with _ | ⟨d, ds⟩
    · rcases hsign with hc | hc <;> subst hc <;> simp +decide [atoiChars, numericSegment]
    · by_cases hall : (d :: ds).all Char.isDigit = true
      · have hd : atoiDigits (d :: ds) 0 = some (digitsVal (d :: ds)) :=
          atoiDigits_all_digits (d :: ds) 0 hall
        rcases hsign with hc | hc <;> subst hc
        · have hval : segmentVal ('-' :: d :: ds) = -(digitsVal (d :: ds) : Int) := by
            simp +decide [segmentVal]
          have hnum : numericSegment ('-' :: d :: ds) = true := by
            simp +decide [numericSegment, hall]
          have hL : atoiChars ('-' :: d :: ds) =
              if -(digitsVal (d :: ds) : Int) < -(2 ^ 63) ∨
                  (2 ^ 63 - 1 : Int) < -(digitsVal (d :: ds) : Int)
              then none else some (-(digitsVal (d :: ds) : Int)) := by
            simp +decide only [atoiChars]
            simp [hd]
          rw [hL, range_if_flip, hnum, hval]
          simp
        · have hval : segmentVal ('+' :: d :: ds) = (digitsVal (d :: ds) : Int) := by
            simp +decide [segmentVal]
          have hnum : numericSegment ('+' :: d :: ds) = true := by
            simp +decide [numericSegment, hall]
          have hL : atoiChars ('+' :: d :: ds) =
              if (digitsVal (d :: ds) : Int) < -(2 ^ 63) ∨
                  (2 ^ 63 - 1 : Int) < (digitsVal (d :: ds) : Int)
              then none else some ((digitsVal (d :: ds) : Int)) := by
            simp +decide only [atoiChars]
            simp [hd]
          rw [hL, range_if_flip, hnum, hval]
          simp
      · have hd := atoiDigits_non_digit (d :: ds) 0 (Bool.eq_false_iff.mpr hall)
        have hnum : numericSegment (c :: d :: ds) = false := by
          rcases hsign with hc | hc <;> subst hc <;>
            simp +decide [numericSegment, Bool.eq_false_iff.mpr hall]
        rw [hnum]
        rcases hsign with hc | hc <;> subst hc <;>
          simp +decide [atoiChars, hd]
  · push_neg at hsign
    have hdigits : (if c = '-' ∨ c = '+' then rest else c :: rest) = c :: rest := by
      rw [if_neg]
      push_neg
      exact hsign
    have hneg : (decide (c = '-')) = false := by
      simp [hsign.1]
    by_cases hall : (c :: rest).all Char.isDigit = true
    · have hd : atoiDigits (c :: rest) 0 = some (digitsVal (c :: rest)) :=
        atoiDigits_all_digits (c :: rest) 0 hall
      have hval : segmentVal (c :: rest) = (digitsVal (c :: rest) : Int) := by
        simp [segmentVal, hsign.1, hsign.2]
      have hnum : numericSegment (c :: rest) = true := by
        simp [numericSegment, hsign.1, hsign.2, hall]
      have hL : atoiChars (c :: rest) =
          if (digitsVal (c :: rest) : Int) < -(2 ^ 63) ∨
              (2 ^ 63 - 1 : Int) < (digitsVal (c :: rest) : Int)
          then none else some ((digitsVal (c :: rest) : Int)) := by
        simp only [atoiChars, hdigits, hneg, hd]
        simp
      rw [hL, range_if_flip, hnum, hval]
      simp
    · have hd := atoiDigits_non_digit (c :: rest) 0 (Bool.eq_false_iff.mpr hall)
      have hnum : numericSegment (c :: rest) = false := by
        simp [numericSegment, hsign.1, hsign.2, Bool.eq_false_iff.mpr hall]
      rw [hnum]
      simp [atoiChars, hdigits, hd]

/-- **C7** counterexample.  The claim says id extraction fails exactly when
the segment is absent or non-numeric.  On the path whose id segment is the
numeric literal `99999999999999999999` (twenty digits, above `2^63 - 1`),
the segment is present and numeric, yet `getId` fails — `strconv.Atoi`
rejects values outside the signed 64-bit range — so the equivalence is
false at this input. -/
theorem c7_id_extraction_counterexample :
    ¬ (getIdOk "/getProduct/99999999999999999999" = true ↔
        segmentNumeric "/getProduct/99999999999999999999" = true) := by
  decide

/-- **C7** (amended).  Id extraction parses the path segment at index 2 of
the `/`-split as a base-10 integer and returns its value; it fails exactly
when that segment is absent, non-numeric, or outside the signed 64-bit
integer range. -/
theorem c7_id_extraction_amended (path : String) :
    (getIdOk path = true ↔
      segmentNumeric path = true ∧ inInt64Range (pathSegmentVal path)) ∧
    (∀ n : Int, getId path = .ok n → n = pathSegmentVal path) := by
  by_cases hlen : (splitOnSlash path.data).length < 3
  · have hnone : (splitOnSlash path.data).get? 2 = none := by
      rw [List.get?_eq_none]
      omega
    have hgetId : getId path = .error .idAbsent := by
      unfold getId
      rw [if_pos hlen]
    have hok : getIdOk path = false := by
      unfold getIdOk
      rw [hgetId]
    have hsn : segmentNumeric path = false := by
      unfold segmentNumeric segmentOfPath
      rw [hnone]
    constructor
    · rw [hok, hsn]
      simp
    · intro n hn
      rw [hgetId] at hn
      exact absurd hn (by simp)
  · have h2 : 2 < (splitOnSlash path.data).length := by omega
    have hsome : (splitOnSlash path.data).get? 2 =
        some ((splitOnSlash path.data).get ⟨2, h2⟩) := List.get?_eq_get h2
    have hgetD : (splitOnSlash path.data).getD 2 [] =
        (splitOnSlash path.data).get ⟨2, h2⟩ := by
      rw [List.getD_eq_get?, hsome]
      rfl
    have hsn : segmentNumeric path =
        numericSegment ((splitOnSlash path.data).get ⟨2, h2⟩) := by
      unfold segmentNumeric segmentOfPath
      rw [hsome]
    have hpv : pathSegmentVal path =
        segmentVal ((splitOnSlash path.data).get ⟨2, h2⟩) := by
      unfold pathSegmentVal segmentOfPath
      rw [hsome]
    have hgetId : getId path =
        match atoiChars ((splitOnSlash path.data).get ⟨2, h2⟩) with
        | none => .error (.idNotNumeric (String.mk ((splitOnSlash path.data).get ⟨2, h2⟩)))
        | some n => .ok n := by
      unfold getId
      rw [if_neg hlen, hgetD]
      rfl
    rw [atoiChars_eq] at hgetId
    by_cases hcond : numericSegment ((splitOnSlash path.data).get ⟨2, h2⟩) = true ∧
        inInt64Range (segmentVal ((splitOnSlash path.data).get ⟨2, h2⟩))
    · rw [if_pos hcond] at hgetId
      have hgetId2 : getId path =
          .ok (segmentVal ((splitOnSlash path.data).get ⟨2, h2⟩)) := by
        rw [hgetId]
      have hok : getIdOk path = true := by
        unfold getIdOk
        rw [hgetId2]
      constructor
      · rw [hok, hsn, hpv]
        exact iff_of_true rfl hcond
      · intro n hn
        rw [hgetId2] at hn
        rw [hpv]
        exact (Except.ok.inj hn).symm
    · rw [if_neg hcond] at hgetId
      have hgetId2 : getId path =
          .error (.idNotNumeric (String.mk ((splitOnSlash path.data).get ⟨2, h2⟩))) := by
        rw [hgetId]
      have hok : getIdOk path = false := by
        unfold getIdOk
        rw [hgetId2]
      constructor
      · rw [hok, hsn, hpv]
        exact iff_of_false (by simp) hcond
      · intro n hn
        rw [hgetId2] at hn
        exact absurd hn (by simp)

/-- Witness for the amended C7: `/getProduct/123` has a present, numeric,
in-range segment, so extraction succeeds and returns the segment's value. -/
theorem c7_id_extraction_amended_witness :
    getIdOk "/getProduct/123" = true ∧
    (123 : Int) = pathSegmentVal "/getProduct/123" :=
  ⟨(c7_id_extraction_amended "/getProduct/123").1.mpr (by decide),
   (c7_id_extraction_amended "/getProduct/123").2 123 (by decide)⟩

/-- Witness for C9: updating the row with id 1, stored with createdAt 9,
answers 200 with a zero-timestamp payload and stores createdAt 0. -/
theorem c9_update_zeroes_witness :
    (updateProductRoute dbOneRow (.wellFormed ⟨1, "n2", "c2"⟩)).fst =
      writeJSON 200 (.payload ⟨1, "n2", "c2", zeroTime⟩) ∧
    ∀ r ∈ [(⟨1, "n2", "c2", zeroTime⟩ : Product)], r.id = 1 → r.createdAt = zeroTime := by
  have H := c9_update_overwrites_createdAt_with_zero dbOneRow [⟨1, "x", "y", 9⟩]
    ⟨1, "n2", "c2"⟩ (by decide)
  exact ⟨H.1, H.2 [⟨1, "n2", "c2", zeroTime⟩] (by decide)⟩
